import Mathlib

/-!
Shallow embedding of the lip-sync video synthesis pipeline
(server/virtual/api.py) and proofs of the specified properties.

Strings are modelled by Lean String / List Char; the filesystem, the
network, the romanization service (pypinyin) and the external ffmpeg /
ffprobe processes are modelled as explicit parameters at their interface
boundaries.  Rational numbers stand in for the Python floats carrying
durations (only order and arithmetic on exact values are used).
-/

namespace LipSync

/-! ## Viseme mapping table (VIS_MAP / phone2vis) -/

/-- Embedding of the static dict VIS_MAP from server/virtual/api.py,
as an association list in source order. -/
def VIS_MAP : List (String × String) :=
  [ ("b", "00"), ("p", "00"), ("m", "00"),
    ("f", "01"),
    ("s", "02"), ("x", "02"), ("c", "02"), ("z", "02"),
    ("sh", "02"), ("ch", "02"), ("q", "02"), ("zh", "02"),
    ("d", "03"), ("t", "03"), ("n", "03"), ("l", "03"),
    ("ɜ", "03"), ("ə", "03"),
    ("a", "04"), ("ɑ", "04"), ("æ", "04"),
    ("A", "05"),
    ("i", "06"), ("j", "06"), ("y", "06"),
    ("ɔ", "07"), ("o", "07"),
    ("u", "08"), ("ʊ", "08"),
    ("ü", "09"), ("v", "09"),
    ("B", "00"), ("P", "00"), ("M", "00"),
    ("F", "01"), ("V", "01"),
    ("S", "02"), ("Z", "02"), ("C", "02"),
    ("ʃ", "02"), ("tʃ", "02"), ("dʒ", "02"),
    ("D", "03"), ("T", "03"), ("N", "03"), ("L", "03"), ("R", "03"),
    ("E", "06"), ("I", "06"),
    ("O", "07"),
    ("U", "08") ]

/-- Embedding of phone2vis: dict lookup with default viseme "03". -/
def phone2vis (p : String) : String :=
  (VIS_MAP.lookup p).getD "03"

/-- The fixed closed set of viseme identifiers "00".."09". -/
def visemeSet : List String :=
  ["00", "01", "02", "03", "04", "05", "06", "07", "08", "09"]

/-! ## Tokenizer (split_zh_en) -/

/-- Character class of the regex range [一-龥] in split_zh_en. -/
def isCJK (c : Char) : Bool :=
  decide (0x4e00 ≤ c.toNat) && decide (c.toNat ≤ 0x9fa5)

/-- Character class of the regex range [a-zA-Z] in split_zh_en. -/
def isLatin (c : Char) : Bool :=
  (decide ('a' ≤ c) && decide (c ≤ 'z')) || (decide ('A' ≤ c) && decide (c ≤ 'Z'))

/-- Script class of a character: some true for CJK, some false for Latin,
none for every other character (dropped by the tokenizer). -/
def classOf (c : Char) : Option Bool :=
  if isCJK c then some true else if isLatin c then some false else none

/-- Embedding of split_zh_en: re.findall of maximal runs of CJK
ideographs or maximal runs of ASCII letters, in left-to-right order.
Implemented structurally: each step consumes one character and, when the
next character continues a run of the same class, merges into the first
token of the tail split. -/
def split_zh_en : List Char → List (List Char)
  | [] => []
  | c :: cs =>
    match classOf c with
    | none => split_zh_en cs
    | some b =>
      match cs, split_zh_en cs with
      | d :: _, t :: ts =>
        if classOf d = some b then (c :: t) :: ts else [c] :: t :: ts
      | _, r => [c] :: r

/-! ## Romanization service boundary (pypinyin lazy_pinyin) -/

/-- Interface of the romanization service (lazy_pinyin with
Style.NORMAL) as the spec's external collaborator: a deterministic pure
function from a token to the ordered list of its syllable romanizations,
one per character of a CJK token, each romanization non-empty. -/
structure RomService where
  rom : List Char → List (List Char)
  rom_len : ∀ t, (rom t).length = t.length
  rom_ne : ∀ t, ∀ py ∈ rom t, py ≠ []

/-- Embedding of tok2vis: a token containing a CJK character is
romanized and each romanization contributes phone2vis of its first
letter; otherwise the token contributes a single viseme derived from the
uppercased first character.  (In the source an empty token would raise
IndexError; split_zh_en never produces one, see split tokens lemmas.) -/
def tok2vis (R : RomService) (t : List Char) : List String :=
  if t.any isCJK then
    (R.rom t).map (fun py => phone2vis (String.mk (py.take 1)))
  else
    match t with
    | [] => []
    | c :: _ => [phone2vis (String.mk [c.toUpper])]

/-- Embedding of build_vis_seq: concatenation of the per-token viseme
lists, in token order (itertools.chain). -/
def build_vis_seq (R : RomService) (text : List Char) : List String :=
  ((split_zh_en text).map (tok2vis R)).flatten

/-- Embedding of the request-boundary text check in api_generate:
Python "if not req.text" rejects exactly the empty string. -/
def textRejected (t : String) : Bool :=
  t == ""

/-! ## Declarative run decomposition (spec section 4.1) -/

/-- Declarative characterization of the tokenizer output: the token list
consists of the maximal script-homogeneous runs of the text taken in
left-to-right order, all other characters contributing nothing.
Maximality is the condition that the character immediately after a run
(if any) is not of the run's class. -/
inductive RunSplit : List Char → List (List Char) → Prop
  | nil : RunSplit [] []
  | skip (c : Char) (cs : List Char) (ts : List (List Char)) :
      classOf c = none → RunSplit cs ts → RunSplit (c :: cs) ts
  | run (b : Bool) (r rest : List Char) (ts : List (List Char)) :
      r ≠ [] → (∀ c ∈ r, classOf c = some b) →
      (∀ d ∈ rest.head?, classOf d ≠ some b) →
      RunSplit rest ts → RunSplit (r ++ rest) (r :: ts)

/-! ## Audio resolver (_load_audio_robust) -/

/-- Filesystem interface used by the audio resolver: os.path.isfile
(existing regular file) and os.path.exists (any existing path). -/
structure FileSys where
  isfile : String → Bool
  pathExists : String → Bool

/-- str.startswith on character lists: the second argument is the
pattern that must begin the first. -/
def listStartsWith : List Char → List Char → Bool
  | _, [] => true
  | [], _ :: _ => false
  | c :: cs, d :: ds => (c = d) && listStartsWith cs ds

/-- The scheme test source.startswith(("http://", "https://")). -/
def isHTTP (s : String) : Bool :=
  listStartsWith s.data "http://".data || listStartsWith s.data "https://".data

/-- Basename of a path: the part after the last slash (posix). -/
def basenameOf (p : List Char) : List Char :=
  (p.reverse.takeWhile (fun c => ¬ c = '/')).reverse

/-- Extension of a basename, dot included, following os.path.splitext:
the part from the last dot on, provided some non-dot character of the
basename comes before that dot (so leading dots never start an
extension); empty when there is no such dot. -/
def extOfBase (b : List Char) : List Char :=
  let r := b.reverse
  let after := r.takeWhile (fun c => ¬ c = '.')
  match r.dropWhile (fun c => ¬ c = '.') with
  | [] => []
  | _ :: before => if before.any (fun c => ¬ c = '.') then '.' :: after.reverse else []

/-- os.path.splitext(p)[1] on a posix path. -/
def splitextExt (p : String) : String :=
  String.mk (extOfBase (basenameOf p.data))

/-- The download suffix: os.path.splitext(url)[1] or ".mp3". -/
def suffixFor (source : String) : String :=
  let e := splitextExt source
  if e = "" then ".mp3" else e

/-- Error categories raised by the audio resolver: ConnectionError for
a failed download, FileNotFoundError otherwise. -/
inductive AudioError
  | downloadFailed (msg : String)
  | notFound (msg : String)
deriving DecidableEq

/-- Embedding of _load_audio_robust.  netOk models whether the streamed
GET of case (b) succeeds (requests raising RequestException otherwise);
uid models the uuid4 hex used for the unique temporary file name.  The
source's branch order is kept exactly: isfile, then the HTTP(S) schemes,
then a plain os.path.exists fallback, then FileNotFoundError. -/
def load_audio_robust (fs : FileSys) (netOk : Bool) (uid : String)
    (source temp_dir : String) : Except AudioError (String × Bool) :=
  if fs.isfile source then .ok (source, false)
  else if isHTTP source then
    if netOk then .ok (temp_dir ++ "/audio_" ++ uid ++ suffixFor source, true)
    else .error (.downloadFailed ("Failed to download audio: " ++ source))
  else if fs.pathExists source then .ok (source, false)
  else .error (.notFound ("Audio file not found: " ++ source))

/-- Modelled from the claim's words (C6): a resolver trying exactly
three cases in order — existing local file returned unchanged, HTTP(S)
source downloaded into the working directory, and otherwise a not-found
failure.  Used only to compare the claimed case analysis with the
source's load_audio_robust. -/
def resolveAudio_claimed (fs : FileSys) (netOk : Bool) (uid : String)
    (source temp_dir : String) : Except AudioError (String × Bool) :=
  if fs.isfile source then .ok (source, false)
  else if isHTTP source then
    if netOk then .ok (temp_dir ++ "/audio_" ++ uid ++ suffixFor source, true)
    else .error (.downloadFailed ("Failed to download audio: " ++ source))
  else .error (.notFound ("Audio file not found: " ++ source))

/-! ## Media prober (get_audio_duration) -/

/-- A metadata duration value as parsed from the probe's JSON: the
literal string "N/A", a numeric string with its value, or an
unparseable string (float() raises ValueError on it). -/
inductive MetaVal
  | na
  | num (q : ℚ)
  | junk
deriving DecidableEq

/-- One entry of the probe's "streams" array, restricted to the fields
get_audio_duration reads. -/
structure StreamMeta where
  codec_type : String
  duration : Option MetaVal

/-- The probe's parsed JSON document, restricted to the fields
get_audio_duration reads: data["format"]["duration"] when present, and
the "streams" array when present. -/
structure ProbeData where
  format_duration : Option MetaVal
  streams : Option (List StreamMeta)

/-- The stream loop of get_audio_duration: first audio stream whose
duration parses to a strictly positive number; an unparseable duration
aborts the whole probe (ValueError reaches the outer handler), and
"N/A", absent, or non-positive durations skip to the next stream. -/
def scanStreams : List StreamMeta → Option ℚ
  | [] => none
  | s :: rest =>
    if s.codec_type = "audio" then
      match s.duration with
      | some (.num q) => if 0 < q then some q else scanStreams rest
      | some .na => scanStreams rest
      | some .junk => none
      | none => scanStreams rest
    else scanStreams rest

/-- Outcome of the stream loop: a found duration is returned, and an
exhausted (or aborted) loop reaches the final raise. -/
def streamScanResult (r : Option ℚ) : Except String ℚ :=
  match r with
  | some q => .ok q
  | none => .error "Unable to get audio duration"

/-- The stream-level phase of get_audio_duration, reached when the
container-level duration did not produce a positive value: absent
"streams" key reaches the final raise, otherwise the stream loop
decides. -/
def streamPhase (streams : Option (List StreamMeta)) : Except String ℚ :=
  match streams with
  | none => .error "Unable to get audio duration"
  | some l => streamScanResult (scanStreams l)

/-- The container-level phase of get_audio_duration: a positive
format.duration is returned directly; "N/A", absence or a non-positive
value falls through to the stream phase; an unparseable value aborts
(ValueError caught by the outer handler, then the final raise). -/
def formatPhase (fd : Option MetaVal) (streams : Option (List StreamMeta)) :
    Except String ℚ :=
  match fd with
  | some (.num q) => if 0 < q then .ok q else streamPhase streams
  | some .na => streamPhase streams
  | some .junk => .error "Unable to get audio duration"
  | none => streamPhase streams

/-- Embedding of get_audio_duration.  existsOnDisk models
os.path.exists(audio_path); probeOk models ffprobe exiting zero with
parseable JSON on stdout. -/
def get_audio_duration (existsOnDisk probeOk : Bool) (d : ProbeData) :
    Except String ℚ :=
  if existsOnDisk = false then .error "Audio file not found"
  else if probeOk = false then .error "Unable to get audio duration"
  else formatPhase d.format_duration d.streams

/-! ## Rendered durations (generate_video_ffmpeg_ultra_fast) -/

/-- video_duration = len(vis_seq) * char_interval. -/
def nominalVisualDuration (vis_seq : List String) (char_interval : ℚ) : ℚ :=
  vis_seq.length * char_interval

/-- The -t argument of the first ffmpeg invocation:
max(audio_duration, video_duration), the duration of the silent
intermediate video. -/
def stage1TargetDuration (audio nominal : ℚ) : ℚ :=
  max audio nominal

/-- The -shortest flag of the second ffmpeg invocation: the muxed
output ends when the shorter of the two input streams ends. -/
def muxedDuration (videoDur audioDur : ℚ) : ℚ :=
  min videoDur audioDur

/-- Duration of the final output of
generate_video_ffmpeg_ultra_fast: the silent video of duration
max(audio, nominal) muxed with the audio under -shortest. -/
def finalRenderedDuration (audio nominal : ℚ) : ℚ :=
  muxedDuration (stage1TargetDuration audio nominal) audio

/-! ## Render orchestration trace (generate_video_ffmpeg_ultra_fast) -/

/-- Externally visible steps of generate_video_ffmpeg_ultra_fast, in
order: the ffprobe image-size call, each os.path.exists check of
build_concat_demuxer_list, the ffprobe duration call, and each spawned
ffmpeg encoder process (1 = silent video pass, 2 = audio mux). -/
inductive PipeEvent
  | probeSize (p : String)
  | checkImage (p : String)
  | probeDuration (p : String)
  | spawnEncoder (n : Nat)
deriving DecidableEq

/-- os.path.join(lip_dir, f"{vis}.png"). -/
def imgPath (lip_dir vis : String) : String :=
  lip_dir ++ "/" ++ vis ++ ".png"

/-- The existence-checking loop of build_concat_demuxer_list: every
timeline entry's image path is checked with os.path.exists in order,
and the first missing one raises FileNotFoundError. -/
def checkImagesGo (fs : String → Bool) (lip_dir : String) :
    List String → List PipeEvent × Except String Unit
  | [] => ([], .ok ())
  | v :: vs =>
    let p := imgPath lip_dir v
    if fs p then
      (.checkImage p :: (checkImagesGo fs lip_dir vs).1,
       (checkImagesGo fs lip_dir vs).2)
    else ([.checkImage p], .error ("Viseme image not found: " ++ p))

/-- Embedding of generate_video_ffmpeg_ultra_fast as the trace of its
external steps together with its outcome.  fs models os.path.exists;
dur the outcome of get_audio_duration; enc1Ok / enc2Ok the exit status
of the two ffmpeg invocations.  An empty viseme sequence raises
IndexError at vis_seq[0] before any external step.  Every exception is
re-raised wrapped as "Video generation failed: ...". -/
def generate_video_ffmpeg_ultra_fast (fs : String → Bool)
    (dur : Except String ℚ) (enc1Ok enc2Ok : Bool)
    (vis_seq : List String) (lip_dir audio_file : String) :
    List PipeEvent × Except String Unit :=
  match vis_seq with
  | [] => ([], .error "Video generation failed: IndexError")
  | v0 :: vs =>
    let e0 := PipeEvent.probeSize (imgPath lip_dir v0)
    let es := (checkImagesGo fs lip_dir (v0 :: vs)).1
    match (checkImagesGo fs lip_dir (v0 :: vs)).2 with
    | .error m => (e0 :: es, .error ("Video generation failed: " ++ m))
    | .ok _ =>
      match dur with
      | .error m =>
        (e0 :: es ++ [.probeDuration audio_file],
         .error ("Video generation failed: " ++ m))
      | .ok _ =>
        if enc1Ok then
          if enc2Ok then
            (e0 :: es ++ [.probeDuration audio_file, .spawnEncoder 1, .spawnEncoder 2],
             .ok ())
          else
            (e0 :: es ++ [.probeDuration audio_file, .spawnEncoder 1, .spawnEncoder 2],
             .error "Video generation failed: Audio-video merge failed")
        else
          (e0 :: es ++ [.probeDuration audio_file, .spawnEncoder 1],
           .error "Video generation failed: Video generation failed")

/-! ## Lifecycle (generate_video) -/

/-- The filesystem state generate_video manages: whether the
per-request temporary directory exists and whether the output file
exists (possibly partially written). -/
structure FSState where
  tempDirExists : Bool
  outputExists : Bool

/-- Embedding of the try/except/finally skeleton of generate_video.
tempfile.mkdtemp creates the temporary directory; the body (audio
resolution plus the encoder pipeline, abstracted as an arbitrary state
transformer so that handled failures and unexpected exceptions are both
covered) runs inside try; the except branch unlinks the output file
when it exists and re-raises wrapped; the finally branch removes the
temporary directory. -/
def generate_video (body : FSState → FSState × Except String Unit)
    (s₀ : FSState) : FSState × Except String Unit :=
  let s₁ : FSState := { s₀ with tempDirExists := true }
  let (s₂, r) := body s₁
  match r with
  | .ok _ => ({ s₂ with tempDirExists := false }, .ok ())
  | .error e =>
    let s₃ : FSState :=
      if s₂.outputExists then { s₂ with outputExists := false } else s₂
    ({ s₃ with tempDirExists := false },
     .error ("Video generation failed: " ++ e))

/-! ## Spec-modelled pinyin initial (claim C8) -/

/-- Modelled from the spec: the PhoneticUnit of a CJK syllable is the
first grapheme of its romanization, handling the multi-letter initials
"sh", "ch", "zh" as single units before falling back to the single
first letter. -/
def spec_initial (py : List Char) : String :=
  if py.take 2 = ['s', 'h'] then "sh"
  else if py.take 2 = ['c', 'h'] then "ch"
  else if py.take 2 = ['z', 'h'] then "zh"
  else String.mk (py.take 1)

/-! ## Concrete instances used for witnesses and counterexamples -/

/-- A concrete romanization service: every character romanizes to
"ni". -/
def romA : RomService where
  rom := fun t => t.map (fun _ => ['n', 'i'])
  rom_len := by intro t; simp
  rom_ne := by
    intro t py h
    rw [List.mem_map] at h
    obtain ⟨c, _, rfl⟩ := h
    simp

/-- The same romanization service as romA, written differently: used to
instantiate the determinism theorem at two extensionally equal
services. -/
def romB : RomService where
  rom := fun t => t.map (fun _ => 'n' :: ['i'])
  rom_len := by intro t; simp
  rom_ne := by
    intro t py h
    rw [List.mem_map] at h
    obtain ⟨c, _, rfl⟩ := h
    simp

/-- A concrete filesystem on which "/data/adir" exists but is not a
regular file (a directory). -/
def fsDirOnly : FileSys where
  isfile := fun _ => false
  pathExists := fun s => s == "/data/adir"

/-- Boolean success observer on resolver results. -/
def resolverOk (r : Except AudioError (String × Bool)) : Bool :=
  match r with
  | .ok _ => true
  | .error _ => false

end LipSync

namespace LipSync

/-! ## Helper lemmas -/

theorem lookup_val_mem {α β : Type} [BEq α] :
    ∀ (l : List (α × β)) (k : α) (v : β),
      l.lookup k = some v → v ∈ l.map Prod.snd := by
  intro l
  induction l with
  | nil => intro k v h; simp [List.lookup] at h
  | cons p t ih =>
    intro k v h
    obtain ⟨pk, pv⟩ := p
    rw [List.lookup] at h
    cases hk : k == pk with
    | true =>
      rw [hk] at h
      cases h
      simp
    | false =>
      rw [hk] at h
      simp only [List.map_cons, List.mem_cons]
      exact Or.inr (ih k v h)

theorem phone2vis_mem_visemeSet (p : String) : phone2vis p ∈ visemeSet := by
  unfold phone2vis
  cases h : VIS_MAP.lookup p with
  | none => simp [visemeSet]
  | some v =>
    have hv : v ∈ VIS_MAP.map Prod.snd := lookup_val_mem VIS_MAP p v h
    have hall : ∀ x ∈ VIS_MAP.map Prod.snd, x ∈ visemeSet := by decide
    simpa using hall v hv

/-! ## Claim C1: final rendered duration -/

/-- Claim C1 counterexample: with a probed audio duration of 1 second
and two visemes of 1 second each (nominal visual duration 2), the final
rendered duration is 1, not max(2, 1) = 2, and in particular it is
strictly below the nominal visual duration. -/
theorem C1_counterexample :
    finalRenderedDuration 1 (nominalVisualDuration ["00", "00"] 1) ≠
      max (nominalVisualDuration ["00", "00"] 1) 1 ∧
    finalRenderedDuration 1 (nominalVisualDuration ["00", "00"] 1) <
      nominalVisualDuration ["00", "00"] 1 := by
  constructor <;>
    norm_num [finalRenderedDuration, muxedDuration, stage1TargetDuration,
      nominalVisualDuration]

/-- Claim C1 (amended): the first encoder pass clips the silent video
to max(probed audio duration, nominal visual duration), but the audio
mux runs with -shortest, so the final rendered duration always equals
the probed audio duration; the nominal visual duration is the number of
viseme entries times char_interval. -/
theorem C1_amended (audio : ℚ) (s : List String) (ci : ℚ) :
    finalRenderedDuration audio (nominalVisualDuration s ci) = audio ∧
    nominalVisualDuration s ci = s.length * ci := by
  refine ⟨?_, rfl⟩
  unfold finalRenderedDuration muxedDuration stage1TargetDuration
  exact min_eq_right (le_max_left _ _)

/-! ## Claim C5: lifecycle cleanup -/

/-- Claim C5: for every body behavior (success, handled failure, or
unexpected exception) and every starting state, generate_video leaves
the per-request temporary directory removed, and whenever it raises,
the (possibly partially written) output file is removed as well. -/
theorem C5_cleanup (body : FSState → FSState × Except String Unit)
    (s₀ : FSState) :
    (generate_video body s₀).1.tempDirExists = false ∧
    (∀ e, (generate_video body s₀).2 = .error e →
      (generate_video body s₀).1.outputExists = false) := by
  simp only [generate_video]
  rcases body { s₀ with tempDirExists := true } with ⟨s₂, r⟩
  cases r with
  | ok u => simp
  | error e =>
    by_cases ho : s₂.outputExists
    · simp [ho]
    · simp only [Bool.not_eq_true] at ho
      simp [ho]

/-- Claim C5 witness: a body that writes the output file and then
raises; afterwards neither the temporary directory nor the output file
exists. -/
theorem C5_cleanup_witness :
    (generate_video (fun s => ({ s with outputExists := true }, .error "boom"))
        ⟨false, false⟩).1.tempDirExists = false ∧
    (generate_video (fun s => ({ s with outputExists := true }, .error "boom"))
        ⟨false, false⟩).1.outputExists = false :=
  ⟨(C5_cleanup _ _).1,
   (C5_cleanup (fun s => ({ s with outputExists := true }, .error "boom"))
      ⟨false, false⟩).2 "Video generation failed: boom" rfl⟩

/-! ## Claim C8: multi-letter pinyin initials -/

theorem phone2vis_spec_initial (py : List Char) :
    phone2vis (spec_initial py) = phone2vis (String.mk (py.take 1)) := by
  unfold spec_initial
  by_cases h1 : py.take 2 = ['s', 'h']
  · have : py.take 1 = ['s'] := by
      rw [show (1 : Nat) = min 1 2 from rfl, ← List.take_take, h1]
      rfl
    rw [if_pos h1, this]
    decide
  · rw [if_neg h1]
    by_cases h2 : py.take 2 = ['c', 'h']
    · have : py.take 1 = ['c'] := by
        rw [show (1 : Nat) = min 1 2 from rfl, ← List.take_take, h2]
        rfl
      rw [if_pos h2, this]
      decide
    · rw [if_neg h2]
      by_cases h3 : py.take 2 = ['z', 'h']
      · have : py.take 1 = ['z'] := by
          rw [show (1 : Nat) = min 1 2 from rfl, ← List.take_take, h3]
          rfl
        rw [if_pos h3, this]
        decide
      · rw [if_neg h3]

/-- Claim C8: on a CJK token, the viseme the mapper derives from each
syllable by looking up the first letter of its romanization coincides
with the viseme the lookup table assigns to the full phonetic initial
with "sh", "ch", "zh" treated as single units (the table maps each of
those digraphs and its first letter to the same viseme). -/
theorem C8_initials (R : RomService) (t : List Char)
    (h : t.any isCJK = true) :
    tok2vis R t = (R.rom t).map (fun py => phone2vis (spec_initial py)) := by
  unfold tok2vis
  rw [if_pos h]
  apply List.map_congr_left
  intro py _
  exact (phone2vis_spec_initial py).symm

/-- Claim C8 witness at a concrete CJK token. -/
theorem C8_initials_witness :
    tok2vis romA ['你'] =
      (romA.rom ['你']).map (fun py => phone2vis (spec_initial py)) :=
  C8_initials romA ['你'] (by decide)

/-! ## Claim C9: determinism of the viseme mapper -/

/-- Claim C9: the viseme sequence is a function of the text and of the
romanization service's input-output behavior alone; two calls on
identical text with extensionally equal (deterministic, pure)
romanization services return identical sequences. -/
theorem C9_deterministic (R₁ R₂ : RomService)
    (h : ∀ t, R₁.rom t = R₂.rom t) (text : List Char) :
    build_vis_seq R₁ text = build_vis_seq R₂ text := by
  unfold build_vis_seq
  congr 1
  apply List.map_congr_left
  intro t _
  simp only [tok2vis, h]

/-- Claim C9 witness: two syntactically different but extensionally
equal romanization services on a concrete mixed text. -/
theorem C9_deterministic_witness :
    build_vis_seq romA "hi你好".data = build_vis_seq romB "hi你好".data :=
  C9_deterministic romA romB (fun _ => rfl) "hi你好".data

/-! ## Claim C10: existing non-file paths are returned as-is -/

/-- Claim C10: a source that exists on disk but is not a regular file
(for example a directory) and does not begin with an HTTP(S) scheme is
returned unchanged with is_temporary = false, not rejected with a
not-found error (the resolver's final os.path.exists fallback accepts
it). -/
theorem C10_existing_dir (fs : FileSys) (net : Bool) (uid src dir : String)
    (h1 : fs.isfile src = false) (h2 : isHTTP src = false)
    (h3 : fs.pathExists src = true) :
    load_audio_robust fs net uid src dir = .ok (src, false) := by
  simp [load_audio_robust, h1, h2, h3]

/-- Claim C10 witness: the concrete directory "/data/adir". -/
theorem C10_existing_dir_witness :
    load_audio_robust fsDirOnly true "u" "/data/adir" "/tmp" =
      .ok ("/data/adir", false) :=
  C10_existing_dir fsDirOnly true "u" "/data/adir" "/tmp" rfl (by decide) rfl

/-! ## Claim C6: the resolver's case analysis -/

/-- Claim C6 counterexample: on a source that exists as a directory
(not a regular file) and carries no HTTP(S) scheme, the claimed
three-case resolver fails with a not-found error while the source's
resolver returns the path unchanged; the two disagree. -/
theorem C6_counterexample :
    resolveAudio_claimed fsDirOnly true "u" "/data/adir" "/tmp" =
      .error (.notFound "Audio file not found: /data/adir") ∧
    load_audio_robust fsDirOnly true "u" "/data/adir" "/tmp" =
      .ok ("/data/adir", false) ∧
    resolverOk (resolveAudio_claimed fsDirOnly true "u" "/data/adir" "/tmp") ≠
      resolverOk (load_audio_robust fsDirOnly true "u" "/data/adir" "/tmp") := by
  refine ⟨rfl, rfl, ?_⟩
  decide

/-- Claim C6 (amended): the resolver tries four cases in order — an
existing regular file is returned unchanged with is_temporary = false;
an HTTP(S) source is streamed to a uniquely named file in the working
directory whose extension is the source's extension when present and
".mp3" otherwise, returned with is_temporary = true, a network failure
surfacing as a distinct download-failed error; any other existing path
(such as a directory) is returned unchanged with is_temporary = false;
and only then does it fail with a not-found error. -/
theorem C6_amended (fs : FileSys) (net : Bool) (uid src dir : String) :
    (fs.isfile src = true →
      load_audio_robust fs net uid src dir = .ok (src, false)) ∧
    (fs.isfile src = false → isHTTP src = true → net = true →
      load_audio_robust fs net uid src dir =
        .ok (dir ++ "/audio_" ++ uid ++ suffixFor src, true)) ∧
    (fs.isfile src = false → isHTTP src = true → net = false →
      load_audio_robust fs net uid src dir =
        .error (.downloadFailed ("Failed to download audio: " ++ src))) ∧
    (fs.isfile src = false → isHTTP src = false → fs.pathExists src = true →
      load_audio_robust fs net uid src dir = .ok (src, false)) ∧
    (fs.isfile src = false → isHTTP src = false → fs.pathExists src = false →
      load_audio_robust fs net uid src dir =
        .error (.notFound ("Audio file not found: " ++ src))) := by
  refine ⟨?_, ?_, ?_, ?_, ?_⟩
  · intro h1
    simp [load_audio_robust, h1]
  · intro h1 h2 h3
    simp [load_audio_robust, h1, h2, h3]
  · intro h1 h2 h3
    simp [load_audio_robust, h1, h2, h3]
  · intro h1 h2 h3
    simp [load_audio_robust, h1, h2, h3]
  · intro h1 h2 h3
    simp [load_audio_robust, h1, h2, h3]

/-- Claim C6 witness: the download case on a concrete URL (extension
preserved) and the existing-directory case. -/
theorem C6_amended_witness :
    load_audio_robust ⟨fun _ => false, fun _ => false⟩ true "u"
        "http://h/a.wav" "/tmp" = .ok ("/tmp/audio_u.wav", true) ∧
    load_audio_robust fsDirOnly false "u" "/data/adir" "/tmp" =
      .ok ("/data/adir", false) := by
  constructor
  · have h := (C6_amended ⟨fun _ => false, fun _ => false⟩ true "u"
      "http://h/a.wav" "/tmp").2.1 rfl (by decide) rfl
    rw [h]
    rfl
  · exact (C6_amended fsDirOnly false "u" "/data/adir" "/tmp").2.2.2.1 rfl
      (by decide) rfl

/-! ## Claim C7: audio duration probing -/

theorem scanStreams_mem :
    ∀ (l : List StreamMeta) (q : ℚ), scanStreams l = some q →
      ∃ s ∈ l, s.codec_type = "audio" ∧ s.duration = some (.num q) ∧ 0 < q := by
  intro l
  induction l with
  | nil => intro q h; simp [scanStreams] at h
  | cons s rest ih =>
    intro q h
    rw [scanStreams] at h
    split at h
    · rename_i hc
      split at h
      · rename_i q' hd
        split at h
        · rename_i hq
          cases h
          exact ⟨s, List.mem_cons_self _ _, hc, hd, hq⟩
        · obtain ⟨s', hs', hprop⟩ := ih q h
          exact ⟨s', List.mem_cons_of_mem _ hs', hprop⟩
      · obtain ⟨s', hs', hprop⟩ := ih q h
        exact ⟨s', List.mem_cons_of_mem _ hs', hprop⟩
      · exact absurd h (by simp)
      · obtain ⟨s', hs', hprop⟩ := ih q h
        exact ⟨s', List.mem_cons_of_mem _ hs', hprop⟩
    · obtain ⟨s', hs', hprop⟩ := ih q h
      exact ⟨s', List.mem_cons_of_mem _ hs', hprop⟩

theorem scanStreams_pos (l : List StreamMeta) (q : ℚ)
    (h : scanStreams l = some q) : 0 < q := by
  obtain ⟨_, _, _, _, hq⟩ := scanStreams_mem l q h
  exact hq

theorem streamPhase_pos (streams : Option (List StreamMeta)) (q : ℚ)
    (h : streamPhase streams = .ok q) : 0 < q := by
  cases streams with
  | none => simp [streamPhase] at h
  | some l =>
    rw [streamPhase] at h
    cases hscan : scanStreams l with
    | none => rw [hscan] at h; simp [streamScanResult] at h
    | some q' =>
      rw [hscan] at h
      simp only [streamScanResult] at h
      cases h
      exact scanStreams_pos _ _ hscan

/-- Claim C7: every value the duration probe returns is strictly
positive; a positive container-level format duration is returned
directly; an absent, N/A or non-positive container-level value falls
through to the stream scan; the stream scan only ever yields a strictly
positive duration of an audio stream; and when the stream scan yields
nothing the probe fails with an error instead of returning zero. -/
theorem C7_duration_probe :
    (∀ (e p : Bool) (d : ProbeData) (q : ℚ),
        get_audio_duration e p d = .ok q → 0 < q) ∧
    (∀ (d : ProbeData) (q : ℚ), d.format_duration = some (.num q) → 0 < q →
        get_audio_duration true true d = .ok q) ∧
    (∀ d : ProbeData,
        (d.format_duration = none ∨ d.format_duration = some .na ∨
          ∃ q, d.format_duration = some (.num q) ∧ ¬ 0 < q) →
        get_audio_duration true true d = streamPhase d.streams) ∧
    (∀ (l : List StreamMeta) (q : ℚ), scanStreams l = some q →
        ∃ s ∈ l, s.codec_type = "audio" ∧ s.duration = some (.num q) ∧ 0 < q) ∧
    (∀ l : List StreamMeta, scanStreams l = none →
        streamPhase (some l) = .error "Unable to get audio duration") := by
  refine ⟨?_, ?_, ?_, scanStreams_mem, ?_⟩
  · intro e p d q h
    cases e with
    | false => simp [get_audio_duration] at h
    | true =>
      cases p with
      | false => simp [get_audio_duration] at h
      | true =>
        rw [get_audio_duration] at h
        simp only [if_neg (by simp : ¬ (true = false))] at h
        cases hf : d.format_duration with
        | none =>
          rw [hf] at h
          simp only [formatPhase] at h
          exact streamPhase_pos _ _ h
        | some mv =>
          rw [hf] at h
          cases mv with
          | na =>
            simp only [formatPhase] at h
            exact streamPhase_pos _ _ h
          | junk => simp [formatPhase] at h
          | num q' =>
            simp only [formatPhase] at h
            by_cases hq : 0 < q'
            · rw [if_pos hq] at h
              cases h
              exact hq
            · rw [if_neg hq] at h
              exact streamPhase_pos _ _ h
  · intro d q hf hq
    rw [get_audio_duration]
    simp only [if_neg (by simp : ¬ (true = false))]
    rw [hf]
    simp only [formatPhase]
    rw [if_pos hq]
  · intro d hf
    rw [get_audio_duration]
    simp only [if_neg (by simp : ¬ (true = false))]
    rcases hf with hf | hf | ⟨q, hf, hq⟩
    · rw [hf]
      simp [formatPhase]
    · rw [hf]
      simp [formatPhase]
    · rw [hf]
      simp only [formatPhase]
      rw [if_neg hq]
  · intro l hscan
    rw [streamPhase, hscan]
    simp [streamScanResult]

/-- Claim C7 witness: concrete probe documents exercising the positive
result, the container-level priority, the stream-level fallback and the
error case. -/
theorem C7_duration_probe_witness :
    (0 : ℚ) < 3 ∧
    get_audio_duration true true ⟨some (.num 5), none⟩ = .ok 5 ∧
    get_audio_duration true true
        ⟨some .na, some [⟨"video", none⟩, ⟨"audio", some (.num 3)⟩]⟩ =
      streamPhase (some [⟨"video", none⟩, ⟨"audio", some (.num 3)⟩]) ∧
    (∃ s ∈ [StreamMeta.mk "video" none, StreamMeta.mk "audio" (some (.num 3))],
      s.codec_type = "audio" ∧ s.duration = some (.num 3) ∧ (0 : ℚ) < 3) ∧
    streamPhase (some [⟨"audio", some .na⟩]) =
      .error "Unable to get audio duration" :=
  ⟨C7_duration_probe.1 true true
      ⟨some .na, some [⟨"video", none⟩, ⟨"audio", some (.num 3)⟩]⟩ 3 rfl,
   C7_duration_probe.2.1 ⟨some (.num 5), none⟩ 5 rfl (by norm_num),
   C7_duration_probe.2.2.1
      ⟨some .na, some [⟨"video", none⟩, ⟨"audio", some (.num 3)⟩]⟩
      (Or.inr (Or.inl rfl)),
   C7_duration_probe.2.2.2.1 [⟨"video", none⟩, ⟨"audio", some (.num 3)⟩] 3 rfl,
   C7_duration_probe.2.2.2.2 [⟨"audio", some .na⟩] rfl⟩

/-! ## Tokenizer lemmas -/

theorem split_zh_en_junk (c : Char) (cs : List Char) (h : classOf c = none) :
    split_zh_en (c :: cs) = split_zh_en cs := by
  rw [split_zh_en.eq_2, h]

theorem split_zh_en_merge (c d : Char) (tail t : List Char)
    (ts : List (List Char)) (b : Bool) (hc : classOf c = some b)
    (hd : classOf d = some b) (hsp : split_zh_en (d :: tail) = t :: ts) :
    split_zh_en (c :: d :: tail) = (c :: t) :: ts := by
  rw [split_zh_en.eq_2, hc, hsp]
  simp [hd]

theorem split_zh_en_break (c d : Char) (tail t : List Char)
    (ts : List (List Char)) (b : Bool) (hc : classOf c = some b)
    (hd : ¬ classOf d = some b) (hsp : split_zh_en (d :: tail) = t :: ts) :
    split_zh_en (c :: d :: tail) = [c] :: t :: ts := by
  rw [split_zh_en.eq_2, hc, hsp]
  simp [hd]

theorem split_zh_en_single (c : Char) (b : Bool) (hc : classOf c = some b) :
    split_zh_en [c] = [[c]] := by
  rw [split_zh_en.eq_2, hc]
  rfl

theorem split_zh_en_tail_empty (c d : Char) (tail : List Char) (b : Bool)
    (hc : classOf c = some b) (hsp : split_zh_en (d :: tail) = []) :
    split_zh_en (c :: d :: tail) = [[c]] := by
  rw [split_zh_en.eq_2, hc, hsp]

theorem split_zh_en_head (d : Char) (tail : List Char) (b : Bool)
    (hd : classOf d = some b) :
    ∃ t ts, split_zh_en (d :: tail) = (d :: t) :: ts := by
  cases tail with
  | nil => exact ⟨[], [], split_zh_en_single d b hd⟩
  | cons e tail2 =>
    cases hsp : split_zh_en (e :: tail2) with
    | nil => exact ⟨[], [], split_zh_en_tail_empty d e tail2 b hd hsp⟩
    | cons t ts =>
      by_cases hde : classOf e = some b
      · exact ⟨t, ts, split_zh_en_merge d e tail2 t ts b hd hde hsp⟩
      · exact ⟨[], t :: ts, split_zh_en_break d e tail2 t ts b hd hde hsp⟩

theorem runSplit_cons_letter {x : List Char} {ts : List (List Char)}
    (h : RunSplit x ts) (d : Char) (x' : List Char) (b : Bool)
    (hx : x = d :: x') (hd : classOf d = some b) :
    ∃ r' rest ts', ts = (d :: r') :: ts' ∧ x' = r' ++ rest ∧
      (∀ e ∈ r', classOf e = some b) ∧
      (∀ e ∈ rest.head?, classOf e ≠ some b) ∧ RunSplit rest ts' := by
  cases h with
  | nil => exact absurd hx (by simp)
  | skip c cs ts0 hc hrec =>
    injection hx with h1 h2
    subst h1
    rw [hc] at hd
    exact absurd hd (by simp)
  | run b' r rest ts0 hne hhom hmax hrec =>
    cases r with
    | nil => exact absurd rfl hne
    | cons a r' =>
      have hx2 : a :: (r' ++ rest) = d :: x' := hx
      injection hx2 with h1 h2
      subst h1
      subst h2
      have hab : classOf a = some b' := hhom a (List.mem_cons_self _ _)
      rw [hab] at hd
      injection hd with hb
      subst hb
      exact ⟨r', rest, ts0, rfl, rfl,
        fun e he => hhom e (List.mem_cons_of_mem _ he), hmax, hrec⟩

theorem run_split (text : List Char) : RunSplit text (split_zh_en text) := by
  induction text using split_zh_en.induct with
  | case1 => exact RunSplit.nil
  | case2 c cs hc ih =>
    rw [split_zh_en_junk c cs hc]
    exact RunSplit.skip c cs _ hc ih
  | case3 c b hc d tail t ts hd hsp ih =>
    rw [split_zh_en_merge c d tail t ts b hc hd hsp]
    rw [hsp] at ih
    obtain ⟨r', rest, ts', hts, hx, hhom, hmax, hrec⟩ :=
      runSplit_cons_letter ih d tail b rfl hd
    injection hts with ht hts2
    subst ht
    subst hts2
    have hx2 : c :: d :: tail = (c :: d :: r') ++ rest := by
      rw [hx]
      rfl
    rw [hx2]
    refine RunSplit.run b (c :: d :: r') rest ts (by simp) ?_ hmax hrec
    intro e he
    rcases List.mem_cons.mp he with rfl | he2
    · exact hc
    · rcases List.mem_cons.mp he2 with rfl | he3
      · exact hd
      · exact hhom e he3
  | case4 c b hc d tail t ts hd hsp ih =>
    rw [split_zh_en_break c d tail t ts b hc hd hsp]
    rw [hsp] at ih
    have hr : RunSplit ([c] ++ (d :: tail)) ([c] :: t :: ts) := by
      refine RunSplit.run b [c] (d :: tail) (t :: ts) (by simp) ?_ ?_ ih
      · intro e he
        rcases List.mem_cons.mp he with rfl | he2
        · exact hc
        · simp at he2
      · intro e he
        simp only [List.head?] at he
        rw [Option.mem_def] at he
        injection he with he2
        subst he2
        exact hd
    exact hr
  | case5 c cs b hc hnone ih =>
    cases cs with
    | nil =>
      rw [split_zh_en_single c b hc]
      have hr : RunSplit ([c] ++ ([] : List Char)) ([c] :: []) := by
        refine RunSplit.run b [c] [] [] (by simp) ?_ (by simp) RunSplit.nil
        intro e he
        rcases List.mem_cons.mp he with rfl | he2
        · exact hc
        · simp at he2
      exact hr
    | cons d tail =>
      have hsp : split_zh_en (d :: tail) = [] := by
        cases hsp2 : split_zh_en (d :: tail) with
        | nil => rfl
        | cons t ts => exact absurd hsp2 (fun hh => hnone d tail t ts rfl hh)
      have hcd : classOf d = none := by
        cases hcd2 : classOf d with
        | none => rfl
        | some b2 =>
          obtain ⟨t, ts, habs⟩ := split_zh_en_head d tail b2 hcd2
          rw [habs] at hsp
          exact absurd hsp (by simp)
      rw [split_zh_en_tail_empty c d tail b hc hsp]
      rw [hsp] at ih
      have hr : RunSplit ([c] ++ (d :: tail)) ([c] :: []) := by
        refine RunSplit.run b [c] (d :: tail) [] (by simp) ?_ ?_ ih
        · intro e he
          rcases List.mem_cons.mp he with rfl | he2
          · exact hc
          · simp at he2
        · intro e he
          simp only [List.head?] at he
          rw [Option.mem_def] at he
          injection he with he2
          subst he2
          rw [hcd]
          simp
      exact hr

theorem runSplit_token_spec {x : List Char} {ts : List (List Char)}
    (h : RunSplit x ts) :
    ∀ t ∈ ts, t ≠ [] ∧ ∃ b, ∀ c ∈ t, classOf c = some b := by
  induction h with
  | nil => intro t ht; simp at ht
  | skip c cs ts0 hc hrec ih => exact ih
  | run b r rest ts0 hne hhom hmax hrec ih =>
    intro t ht
    rcases List.mem_cons.mp ht with rfl | ht2
    · exact ⟨hne, b, hhom⟩
    · exact ih t ht2

theorem runSplit_ne_nil {x : List Char} {ts : List (List Char)}
    (h : RunSplit x ts) :
    ∀ c ∈ x, classOf c ≠ none → ts ≠ [] := by
  induction h with
  | nil => intro c hc; simp at hc
  | skip c0 cs ts0 hc0 hrec ih =>
    intro c hc hcl
    rcases List.mem_cons.mp hc with rfl | hc2
    · exact absurd hc0 hcl
    · exact ih c hc2 hcl
  | run b r rest ts0 hne hhom hmax hrec ih =>
    intro c hc hcl
    simp

theorem tok2vis_ne (R : RomService) (t : List Char) (hne : t ≠ []) :
    tok2vis R t ≠ [] := by
  unfold tok2vis
  by_cases h : t.any isCJK = true
  · rw [if_pos h]
    intro hmap
    have hlen :
        ((R.rom t).map (fun py => phone2vis (String.mk (py.take 1)))).length = 0 := by
      rw [hmap]
      rfl
    rw [List.length_map, R.rom_len t] at hlen
    exact hne (List.length_eq_zero.mp hlen)
  · rw [if_neg h]
    cases t with
    | nil => exact absurd rfl hne
    | cons c cs => simp

theorem tok2vis_mem (R : RomService) (t : List Char) :
    ∀ v ∈ tok2vis R t, v ∈ visemeSet := by
  intro v hv
  unfold tok2vis at hv
  by_cases h : t.any isCJK = true
  · rw [if_pos h] at hv
    rw [List.mem_map] at hv
    obtain ⟨py, _, rfl⟩ := hv
    exact phone2vis_mem_visemeSet _
  · rw [if_neg h] at hv
    cases t with
    | nil => simp at hv
    | cons c cs =>
      rw [List.mem_singleton] at hv
      subst hv
      exact phone2vis_mem_visemeSet _

theorem build_vis_seq_mem (R : RomService) (text : List Char) :
    ∀ v ∈ build_vis_seq R text, v ∈ visemeSet := by
  intro v hv
  unfold build_vis_seq at hv
  rw [List.mem_flatten] at hv
  obtain ⟨l, hl, hvl⟩ := hv
  rw [List.mem_map] at hl
  obtain ⟨t, ht, rfl⟩ := hl
  exact tok2vis_mem R t v hvl

/-! ## Claim C2: non-empty viseme sequences and the boundary check -/

/-- Claim C2 counterexample: "1" is a non-empty text whose viseme
sequence is empty (it contains no CJK ideograph and no ASCII letter),
and the whitespace-only text " " is not rejected at the request
boundary (the boundary check rejects only the empty string). -/
theorem C2_counterexample :
    ("1" : String) ≠ "" ∧ build_vis_seq romA "1".data = [] ∧
    textRejected " " = false :=
  ⟨by decide, rfl, by decide⟩

/-- Claim C2 (amended): the viseme sequence is non-empty for every
text containing at least one CJK ideograph or ASCII letter, and the
request boundary rejects exactly the empty string (whitespace-only and
other letterless texts pass the boundary and produce an empty viseme
sequence). -/
theorem C2_amended (R : RomService) (text : List Char)
    (h : ∃ c ∈ text, classOf c ≠ none) :
    1 ≤ (build_vis_seq R text).length ∧
    (∀ t : String, textRejected t = true ↔ t = "") := by
  constructor
  · obtain ⟨c, hc, hcl⟩ := h
    have hsplit := run_split text
    have hne := runSplit_ne_nil hsplit c hc hcl
    cases hsp : split_zh_en text with
    | nil => exact absurd hsp hne
    | cons t ts =>
      have htmem : t ∈ split_zh_en text := by
        rw [hsp]
        exact List.mem_cons_self _ _
      have htne : t ≠ [] := (runSplit_token_spec hsplit t htmem).1
      have hv := tok2vis_ne R t htne
      unfold build_vis_seq
      rw [hsp, List.map_cons, List.flatten_cons, List.length_append]
      have hpos : 0 < (tok2vis R t).length := List.length_pos.mpr hv
      omega
  · intro t
    simp [textRejected]

/-- Claim C2 witness: a single-letter text has a non-empty viseme
sequence; the whitespace-only boundary instance. -/
theorem C2_amended_witness :
    1 ≤ (build_vis_seq romA "a".data).length ∧
    (textRejected " " = true ↔ " " = "") :=
  ⟨(C2_amended romA "a".data ⟨'a', by decide, by decide⟩).1,
   (C2_amended romA "a".data ⟨'a', by decide, by decide⟩).2 " "⟩

/-! ## Claim C3: shape of the mapper's output -/

/-- Claim C3: the tokenizer produces exactly the maximal
script-homogeneous runs of the text in left-to-right order (all other
characters contributing nothing); the mapper's output is the
concatenation of the per-run viseme lists in run order; a run
containing a CJK character contributes one viseme per syllable
romanization (one per character); a Latin run contributes exactly one
viseme, derived from the uppercased first character of the whole run;
and every produced viseme lies in the fixed set "00".."09". -/
theorem C3_mapper (R : RomService) (text : List Char) :
    RunSplit text (split_zh_en text) ∧
    build_vis_seq R text = ((split_zh_en text).map (tok2vis R)).flatten ∧
    (∀ t ∈ split_zh_en text, t.any isCJK = true →
      tok2vis R t = (R.rom t).map (fun py => phone2vis (String.mk (py.take 1))) ∧
      (tok2vis R t).length = t.length) ∧
    (∀ t ∈ split_zh_en text, ∀ c cs, t = c :: cs → t.any isCJK = false →
      tok2vis R t = [phone2vis (String.mk [c.toUpper])]) ∧
    (∀ v ∈ build_vis_seq R text, v ∈ visemeSet) := by
  refine ⟨run_split text, rfl, ?_, ?_, build_vis_seq_mem R text⟩
  · intro t ht hcjk
    constructor
    · unfold tok2vis
      rw [if_pos hcjk]
    · unfold tok2vis
      rw [if_pos hcjk, List.length_map]
      exact R.rom_len t
  · intro t ht c cs hteq hnc
    subst hteq
    unfold tok2vis
    rw [if_neg (by simp [hnc])]

/-- Claim C3 witness at the concrete text "hi你": the run split, the
per-run contributions and the viseme-set membership, instantiated. -/
theorem C3_mapper_witness :
    RunSplit "hi你".data (split_zh_en "hi你".data) ∧
    tok2vis romA ['你'] =
      (romA.rom ['你']).map (fun py => phone2vis (String.mk (py.take 1))) ∧
    tok2vis romA ['h', 'i'] = [phone2vis (String.mk ['h'.toUpper])] ∧
    phone2vis "H" ∈ visemeSet :=
  ⟨(C3_mapper romA "hi你".data).1,
   ((C3_mapper romA "hi你".data).2.2.1 ['你'] (by decide) (by decide)).1,
   (C3_mapper romA "hi你".data).2.2.2.1 ['h', 'i'] (by decide) 'h' ['i'] rfl
     (by decide),
   (C3_mapper romA "hi你".data).2.2.2.2 (phone2vis "H") (by decide)⟩

/-! ## Claim C4: eager asset checks before encoding -/

theorem checkImagesGo_cons_pos (fs : String → Bool) (lip_dir v : String)
    (vs : List String) (h : fs (imgPath lip_dir v) = true) :
    checkImagesGo fs lip_dir (v :: vs) =
      (.checkImage (imgPath lip_dir v) :: (checkImagesGo fs lip_dir vs).1,
       (checkImagesGo fs lip_dir vs).2) := by
  rw [checkImagesGo]
  simp [h]

theorem checkImagesGo_cons_neg (fs : String → Bool) (lip_dir v : String)
    (vs : List String) (h : fs (imgPath lip_dir v) = false) :
    checkImagesGo fs lip_dir (v :: vs) =
      ([.checkImage (imgPath lip_dir v)],
       .error ("Viseme image not found: " ++ imgPath lip_dir v)) := by
  rw [checkImagesGo]
  simp [h]

theorem checkImagesGo_events (fs : String → Bool) (lip_dir : String) :
    ∀ l : List String, ∀ e ∈ (checkImagesGo fs lip_dir l).1,
      ∃ p, e = .checkImage p := by
  intro l
  induction l with
  | nil => intro e he; simp [checkImagesGo] at he
  | cons v vs ih =>
    intro e he
    by_cases hv : fs (imgPath lip_dir v) = true
    · rw [checkImagesGo_cons_pos fs lip_dir v vs hv] at he
      rcases List.mem_cons.mp he with rfl | he2
      · exact ⟨_, rfl⟩
      · exact ih e he2
    · simp only [Bool.not_eq_true] at hv
      rw [checkImagesGo_cons_neg fs lip_dir v vs hv] at he
      rcases List.mem_cons.mp he with rfl | he2
      · exact ⟨_, rfl⟩
      · simp at he2

theorem no_spawn_in_checks (fs : String → Bool) (lip_dir : String)
    (l : List String) (n : Nat) :
    PipeEvent.spawnEncoder n ∉ (checkImagesGo fs lip_dir l).1 := by
  intro hn
  obtain ⟨p, hp⟩ := checkImagesGo_events fs lip_dir l _ hn
  exact PipeEvent.noConfusion hp

theorem checkImagesGo_error (fs : String → Bool) (lip_dir : String) :
    ∀ l : List String, (∃ v ∈ l, fs (imgPath lip_dir v) = false) →
      ∃ p, (checkImagesGo fs lip_dir l).2 =
          .error ("Viseme image not found: " ++ p) ∧ fs p = false := by
  intro l
  induction l with
  | nil => rintro ⟨v, hv, _⟩; simp at hv
  | cons v vs ih =>
    rintro ⟨w, hw, hfw⟩
    by_cases hv : fs (imgPath lip_dir v) = true
    · rw [checkImagesGo_cons_pos fs lip_dir v vs hv]
      rcases List.mem_cons.mp hw with rfl | hw2
      · rw [hfw] at hv
        exact absurd hv (by simp)
      · exact ih ⟨w, hw2, hfw⟩
    · simp only [Bool.not_eq_true] at hv
      rw [checkImagesGo_cons_neg fs lip_dir v vs hv]
      exact ⟨imgPath lip_dir v, rfl, hv⟩

theorem checkImagesGo_ok_covers (fs : String → Bool) (lip_dir : String) :
    ∀ l : List String, (checkImagesGo fs lip_dir l).2 = .ok () →
      ∀ v ∈ l, PipeEvent.checkImage (imgPath lip_dir v) ∈
        (checkImagesGo fs lip_dir l).1 := by
  intro l
  induction l with
  | nil => intro _ v hv; simp at hv
  | cons v vs ih =>
    intro hok w hw
    by_cases hv : fs (imgPath lip_dir v) = true
    · rw [checkImagesGo_cons_pos fs lip_dir v vs hv] at hok ⊢
      rcases List.mem_cons.mp hw with rfl | hw2
      · exact List.mem_cons_self _ _
      · exact List.mem_cons_of_mem _ (ih hok w hw2)
    · simp only [Bool.not_eq_true] at hv
      rw [checkImagesGo_cons_neg fs lip_dir v vs hv] at hok
      simp at hok

theorem ultraFast_check_error (fs : String → Bool) (dur : Except String ℚ)
    (e1 e2 : Bool) (v0 : String) (vs : List String) (lip a m : String)
    (h : (checkImagesGo fs lip (v0 :: vs)).2 = .error m) :
    generate_video_ffmpeg_ultra_fast fs dur e1 e2 (v0 :: vs) lip a =
      (PipeEvent.probeSize (imgPath lip v0) :: (checkImagesGo fs lip (v0 :: vs)).1,
       .error ("Video generation failed: " ++ m)) := by
  simp only [generate_video_ffmpeg_ultra_fast]
  rw [h]

theorem ultraFast_dur_error (fs : String → Bool) (e1 e2 : Bool) (v0 : String)
    (vs : List String) (lip a m : String)
    (hok : (checkImagesGo fs lip (v0 :: vs)).2 = .ok ()) :
    generate_video_ffmpeg_ultra_fast fs (.error m) e1 e2 (v0 :: vs) lip a =
      (PipeEvent.probeSize (imgPath lip v0) ::
        (checkImagesGo fs lip (v0 :: vs)).1 ++ [.probeDuration a],
       .error ("Video generation failed: " ++ m)) := by
  simp only [generate_video_ffmpeg_ultra_fast]
  rw [hok]

theorem ultraFast_enc1_fail (fs : String → Bool) (q : ℚ) (e2 : Bool)
    (v0 : String) (vs : List String) (lip a : String)
    (hok : (checkImagesGo fs lip (v0 :: vs)).2 = .ok ()) :
    generate_video_ffmpeg_ultra_fast fs (.ok q) false e2 (v0 :: vs) lip a =
      (PipeEvent.probeSize (imgPath lip v0) ::
        (checkImagesGo fs lip (v0 :: vs)).1 ++
          [.probeDuration a, .spawnEncoder 1],
       .error "Video generation failed: Video generation failed") := by
  simp only [generate_video_ffmpeg_ultra_fast]
  rw [hok]
  rfl

theorem ultraFast_enc2_fail (fs : String → Bool) (q : ℚ) (v0 : String)
    (vs : List String) (lip a : String)
    (hok : (checkImagesGo fs lip (v0 :: vs)).2 = .ok ()) :
    generate_video_ffmpeg_ultra_fast fs (.ok q) true false (v0 :: vs) lip a =
      (PipeEvent.probeSize (imgPath lip v0) ::
        (checkImagesGo fs lip (v0 :: vs)).1 ++
          [.probeDuration a, .spawnEncoder 1, .spawnEncoder 2],
       .error "Video generation failed: Audio-video merge failed") := by
  simp only [generate_video_ffmpeg_ultra_fast]
  rw [hok]
  rfl

theorem ultraFast_success (fs : String → Bool) (q : ℚ) (v0 : String)
    (vs : List String) (lip a : String)
    (hok : (checkImagesGo fs lip (v0 :: vs)).2 = .ok ()) :
    generate_video_ffmpeg_ultra_fast fs (.ok q) true true (v0 :: vs) lip a =
      (PipeEvent.probeSize (imgPath lip v0) ::
        (checkImagesGo fs lip (v0 :: vs)).1 ++
          [.probeDuration a, .spawnEncoder 1, .spawnEncoder 2],
       .ok ()) := by
  simp only [generate_video_ffmpeg_ultra_fast]
  rw [hok]
  rfl

theorem spawn_free_checked_trace (fs : String → Bool) (lip v0 : String)
    (vs : List String) (n : Nat) :
    PipeEvent.spawnEncoder n ∉
      PipeEvent.probeSize (imgPath lip v0) :: (checkImagesGo fs lip (v0 :: vs)).1 := by
  intro hn
  rcases List.mem_cons.mp hn with heq | hn2
  · exact PipeEvent.noConfusion heq
  · exact no_spawn_in_checks fs lip (v0 :: vs) n hn2

/-- Claim C4: if some timeline image is missing, the job fails with a
missing-asset error and no encoder process appears in the trace; when an
encoder is spawned at all, every timeline entry's image was checked; and
in every trace all image checks precede all encoder spawns. -/
theorem C4_missing_asset (fs : String → Bool) (dur : Except String ℚ)
    (enc1 enc2 : Bool) (vis_seq : List String) (lip_dir audio_file : String) :
    ((∃ v ∈ vis_seq, fs (imgPath lip_dir v) = false) →
      (∃ p, (generate_video_ffmpeg_ultra_fast fs dur enc1 enc2 vis_seq
          lip_dir audio_file).2 =
        .error ("Video generation failed: " ++ ("Viseme image not found: " ++ p)) ∧
        fs p = false) ∧
      (∀ n, PipeEvent.spawnEncoder n ∉
        (generate_video_ffmpeg_ultra_fast fs dur enc1 enc2 vis_seq
          lip_dir audio_file).1)) ∧
    ((∃ n, PipeEvent.spawnEncoder n ∈
        (generate_video_ffmpeg_ultra_fast fs dur enc1 enc2 vis_seq
          lip_dir audio_file).1) →
      ∀ v ∈ vis_seq, PipeEvent.checkImage (imgPath lip_dir v) ∈
        (generate_video_ffmpeg_ultra_fast fs dur enc1 enc2 vis_seq
          lip_dir audio_file).1) ∧
    (∃ pre post,
      (generate_video_ffmpeg_ultra_fast fs dur enc1 enc2 vis_seq
        lip_dir audio_file).1 = pre ++ post ∧
      (∀ n, PipeEvent.spawnEncoder n ∉ pre) ∧
      (∀ p, PipeEvent.checkImage p ∉ post)) := by
  cases vis_seq with
  | nil =>
    refine ⟨?_, ?_, [], [], rfl, by simp, by simp⟩
    · rintro ⟨v, hv, _⟩
      simp at hv
    · rintro ⟨n, hn⟩
      simp [generate_video_ffmpeg_ultra_fast] at hn
  | cons v0 vs =>
    cases hck : (checkImagesGo fs lip_dir (v0 :: vs)).2 with
    | error m =>
      have hG := ultraFast_check_error fs dur enc1 enc2 v0 vs lip_dir
        audio_file m hck
      refine ⟨?_, ?_, ?_⟩
      · intro hmiss
        obtain ⟨p, hp2, hpf⟩ := checkImagesGo_error fs lip_dir (v0 :: vs) hmiss
        rw [hck] at hp2
        injection hp2 with hm
        constructor
        · refine ⟨p, ?_, hpf⟩
          rw [hG, hm]
        · intro n
          rw [hG]
          exact spawn_free_checked_trace fs lip_dir v0 vs n
      · rintro ⟨n, hn⟩
        rw [hG] at hn
        exact absurd hn (spawn_free_checked_trace fs lip_dir v0 vs n)
      · refine ⟨PipeEvent.probeSize (imgPath lip_dir v0) ::
          (checkImagesGo fs lip_dir (v0 :: vs)).1, [], ?_, ?_, by simp⟩
        · rw [hG]
          simp
        · exact spawn_free_checked_trace fs lip_dir v0 vs
    | ok u =>
      cases u
      have hmiss_contra : ¬ ∃ v ∈ v0 :: vs, fs (imgPath lip_dir v) = false := by
        intro hmiss
        obtain ⟨p, hp2, _⟩ := checkImagesGo_error fs lip_dir (v0 :: vs) hmiss
        rw [hck] at hp2
        exact Except.noConfusion hp2
      have hcov := checkImagesGo_ok_covers fs lip_dir (v0 :: vs) hck
      cases dur with
      | error m =>
        have hG := ultraFast_dur_error fs enc1 enc2 v0 vs lip_dir
          audio_file m hck
        refine ⟨fun hmiss => absurd hmiss hmiss_contra, ?_, ?_⟩
        · rintro ⟨n, hn⟩
          rw [hG] at hn
          rcases List.mem_cons.mp hn with heq | hn2
          · exact absurd heq (by simp)
          · rcases List.mem_append.mp hn2 with hn3 | hn3
            · exact absurd hn3 (no_spawn_in_checks fs lip_dir (v0 :: vs) n)
            · simp at hn3
        · refine ⟨PipeEvent.probeSize (imgPath lip_dir v0) ::
            (checkImagesGo fs lip_dir (v0 :: vs)).1,
            [PipeEvent.probeDuration audio_file], ?_, ?_, ?_⟩
          · rw [hG]
          · exact spawn_free_checked_trace fs lip_dir v0 vs
          · intro p hp
            simp at hp
      | ok q =>
        have htail :
            ∀ rest : List PipeEvent,
              (∀ v ∈ v0 :: vs, PipeEvent.checkImage (imgPath lip_dir v) ∈
                PipeEvent.probeSize (imgPath lip_dir v0) ::
                  (checkImagesGo fs lip_dir (v0 :: vs)).1 ++ rest) := by
          intro rest v hv
          exact List.mem_cons_of_mem _ (List.mem_append_left _ (hcov v hv))
        cases enc1 with
        | false =>
          have hG := ultraFast_enc1_fail fs q enc2 v0 vs lip_dir audio_file hck
          refine ⟨fun hmiss => absurd hmiss hmiss_contra, ?_, ?_⟩
          · intro _ v hv
            rw [hG]
            exact htail _ v hv
          · refine ⟨PipeEvent.probeSize (imgPath lip_dir v0) ::
              (checkImagesGo fs lip_dir (v0 :: vs)).1,
              [PipeEvent.probeDuration audio_file, PipeEvent.spawnEncoder 1],
              ?_, ?_, ?_⟩
            · rw [hG]
            · exact spawn_free_checked_trace fs lip_dir v0 vs
            · intro p hp
              simp at hp
        | true =>
          cases enc2 with
          | false =>
            have hG := ultraFast_enc2_fail fs q v0 vs lip_dir audio_file hck
            refine ⟨fun hmiss => absurd hmiss hmiss_contra, ?_, ?_⟩
            · intro _ v hv
              rw [hG]
              exact htail _ v hv
            · refine ⟨PipeEvent.probeSize (imgPath lip_dir v0) ::
                (checkImagesGo fs lip_dir (v0 :: vs)).1,
                [PipeEvent.probeDuration audio_file, PipeEvent.spawnEncoder 1,
                 PipeEvent.spawnEncoder 2], ?_, ?_, ?_⟩
              · rw [hG]
              · exact spawn_free_checked_trace fs lip_dir v0 vs
              · intro p hp
                simp at hp
          | true =>
            have hG := ultraFast_success fs q v0 vs lip_dir audio_file hck
            refine ⟨fun hmiss => absurd hmiss hmiss_contra, ?_, ?_⟩
            · intro _ v hv
              rw [hG]
              exact htail _ v hv
            · refine ⟨PipeEvent.probeSize (imgPath lip_dir v0) ::
                (checkImagesGo fs lip_dir (v0 :: vs)).1,
                [PipeEvent.probeDuration audio_file, PipeEvent.spawnEncoder 1,
                 PipeEvent.spawnEncoder 2], ?_, ?_, ?_⟩
              · rw [hG]
              · exact spawn_free_checked_trace fs lip_dir v0 vs
              · intro p hp
                simp at hp

/-- Claim C4 witness: with every image missing the job errors with the
missing-asset message and no encoder is spawned; with all images present
and encoders succeeding, every timeline entry was checked. -/
theorem C4_missing_asset_witness :
    (∃ p, (generate_video_ffmpeg_ultra_fast (fun _ => false) (.ok 3) true true
        ["00"] "L" "a.mp3").2 =
      .error ("Video generation failed: " ++ ("Viseme image not found: " ++ p)) ∧
      (fun (_ : String) => false) p = false) ∧
    (∀ n, PipeEvent.spawnEncoder n ∉
      (generate_video_ffmpeg_ultra_fast (fun _ => false) (.ok 3) true true
        ["00"] "L" "a.mp3").1) ∧
    (∀ v ∈ ["00"], PipeEvent.checkImage (imgPath "L" v) ∈
      (generate_video_ffmpeg_ultra_fast (fun _ => true) (.ok 3) true true
        ["00"] "L" "a.mp3").1) :=
  ⟨((C4_missing_asset (fun _ => false) (.ok 3) true true ["00"] "L" "a.mp3").1
      ⟨"00", by decide, rfl⟩).1,
   ((C4_missing_asset (fun _ => false) (.ok 3) true true ["00"] "L" "a.mp3").1
      ⟨"00", by decide, rfl⟩).2,
   (C4_missing_asset (fun _ => true) (.ok 3) true true ["00"] "L" "a.mp3").2.1
      ⟨1, by decide⟩⟩

end LipSync
